import Mathlib

/-!
# Mesos plugin (`plugins/mesos/mesos.go`): embedding and properties

The plugin polls a list of Mesos endpoints.  `Gather` parses every address,
starts one goroutine per address running `gatherUrl`, and waits on two
channels.  `gatherUrl` does one HTTP GET, decodes the JSON snapshot and adds
one sample per metric to the accumulator.  `getTags` builds the tag map.

Go strings are modelled by Lean strings.  All delimiters the plugin looks at
(`/`, `:`, `[`, `]`, `%`) are ASCII, so scanning characters and scanning
UTF-8 bytes find the same positions.

Calls into the Go standard library whose result depends on the outside world
(`url.Parse`, `URL.String`, `http.Client.Get`, `ioutil.ReadAll`,
`json.Unmarshal`, `os.Hostname`) are fields of an environment `Env`.
`net.SplitHostPort` and `strings.Replace` are pure and are embedded directly.
-/

namespace Mesos

/-! ## Data model -/

deriving instance DecidableEq for Except

/-- The fields of `url.URL` that the plugin reads. -/
structure URL where
  Scheme : String
  Host : String
  Opaque : String := ""
  Path : String := ""
  RawQuery : String := ""
  Fragment : String := ""
deriving DecidableEq, Repr

/-- A `float64`, kept as its IEEE-754 bit pattern.  The plugin never computes
with metric values, it only passes them on. -/
structure Float64 where
  bits : Nat
deriving DecidableEq, Repr

/-- A value that `json.Unmarshal` stores in an `interface{}`: `float64` for
numbers, `string`, `bool`, `nil`, `[]interface{}` and
`map[string]interface{}`. -/
inductive JVal where
  | num (x : Float64)
  | str (s : String)
  | bool (b : Bool)
  | null
  | arr (xs : List JVal)
  | obj (kvs : List (String × JVal))

/-- Go name of the dynamic type held by a decoded value, as it appears in the
runtime message of a failed type assertion. -/
def JVal.typeName : JVal → String
  | .num _ => "float64"
  | .str _ => "string"
  | .bool _ => "bool"
  | .null => "nil"
  | .arr _ => "[]interface \x7b\x7d"
  | .obj _ => "map[string]interface \x7b\x7d"

/-- A `map[string]string`, as the list of its entries. -/
abbrev Tags := List (String × String)

/-- One call of `acc.Add(name, value, tags)`. -/
structure Sample where
  name : String
  value : Float64
  tags : Tags
deriving DecidableEq, Repr

/-- Modelled from the spec: the sink type `plugins.Accumulator` is declared
outside `mesos.go`; the spec gives it as
`append(metricName, value, tags) -> void`.  The sink is the list of the
samples it received, oldest first. -/
abbrev Accumulator := List Sample

/-- Modelled from the spec: `plugins.Accumulator.Add`, declared outside
`mesos.go`; appends one sample to the sink. -/
def Accumulator.Add (acc : Accumulator) (name : String) (value : Float64)
    (tags : Tags) : Accumulator :=
  acc ++ [{ name := name, value := value, tags := tags }]

/-- What `client.Get` hands back on success: the status code, the status
line, and the outcome of reading the body with `ioutil.ReadAll`. -/
structure Response where
  StatusCode : Nat
  Status : String
  Body : Except String String

/-- The outside world as seen by the plugin. -/
structure Env where
  /-- Result of `url.Parse`. -/
  parse : String → Except String URL
  /-- Result of `URL.String`. -/
  urlString : URL → String
  /-- Result of `client.Get` on a request URL. -/
  get : String → Except String Response
  /-- Result of `json.Unmarshal` into a `map[string]interface{}`: the entries
  of the decoded map in the order in which the `range` loop visits them. -/
  unmarshal : String → Except String (List (String × JVal))
  /-- Result of `os.Hostname`. -/
  hostname : Except String String
  /-- Whether `net.SplitHostPort` rejects a `%` in an unbracketed host, as
  older releases of the Go library do. -/
  zoneCheck : Bool

/-! ## `strings.Replace(k, "/", "_", -1)` -/

/-- Replacement of every non-overlapping occurrence of a non-empty `old` by
`new`, scanning from the left; `skip` counts the characters of a matched
`old` that are still to be dropped. -/
def replaceGo (old new : List Char) : Nat → List Char → List Char
  | _, [] => []
  | 0, c :: cs =>
    if old.isPrefixOf (c :: cs) then new ++ replaceGo old new (old.length - 1) cs
    else c :: replaceGo old new 0 cs
  | skip + 1, _ :: cs => replaceGo old new skip cs

/-- The call `strings.Replace(s, old, new, -1)` for non-empty `old`: when
`old` and `new` are equal the string is returned as is. -/
def stringsReplace (s old new : String) : String :=
  if old = new then s else ⟨replaceGo old.data new.data 0 s.data⟩

/-- The metric name computed at line 102. -/
def metricName (k : String) : String := stringsReplace k "/" "_"

/-! ## `net.SplitHostPort` -/

/-- First index of `c` in `s`. -/
def indexByte (c : Char) : List Char → Option Nat
  | [] => none
  | x :: xs => if x = c then some 0 else (indexByte c xs).map (· + 1)

/-- Last index of `c` in `s`. -/
def lastIndexByte (c : Char) : List Char → Option Nat
  | [] => none
  | x :: xs =>
    match lastIndexByte c xs with
    | some i => some (i + 1)
    | none => if x = c then some 0 else none

/-- The two checks that close `net.SplitHostPort` and the final split. -/
def splitTail (s : List Char) (i j k : Nat) (host : List Char) :
    Except String (String × String) :=
  if (indexByte '[' (s.drop j)).isSome then .error "unexpected '[' in address"
  else if (indexByte ']' (s.drop k)).isSome then .error "unexpected ']' in address"
  else .ok (⟨host⟩, ⟨s.drop (i + 1)⟩)

/-- Go's `net.SplitHostPort`: host and port of `host:port` or `[host]:port`,
or the reason of the failure. -/
def SplitHostPort (zoneCheck : Bool) (hostport : String) :
    Except String (String × String) :=
  let s := hostport.data
  match lastIndexByte ':' s with
  | none => .error "missing port in address"
  | some i =>
    if s.head? = some '[' then
      match indexByte ']' s with
      | none => .error "missing ']' in address"
      | some e =>
        if e + 1 = s.length then .error "missing port in address"
        else if e + 1 = i then splitTail s i 1 (e + 1) ((s.take e).drop 1)
        else if s.get? (e + 1) = some ':' then .error "too many colons in address"
        else .error "missing port in address"
    else
      let host := s.take i
      if (indexByte ':' host).isSome then .error "too many colons in address"
      else if zoneCheck && (indexByte '%' host).isSome then
        .error "missing brackets in address"
      else splitTail s i 0 0 host

/-! ## `getTags` -/

/-- The port computed by lines 110-120 of `getTags`. -/
def getPort (env : Env) (addr : URL) : String :=
  match SplitHostPort env.zoneCheck addr.Host with
  | .ok (_, port) => port
  | .error _ =>
    if addr.Scheme = "http" then "80"
    else if addr.Scheme = "https" then "443"
    else ""

/-- The plugin's `getTags`. -/
def getTags (env : Env) (addr : URL) : Tags :=
  let port := getPort env addr
  let host :=
    match env.hostname with
    | .ok h => h
    | .error _ => "unknown"
  [("host", host), ("port", port)]

/-- Lookup in a Go map given by its entries. -/
def Tags.get? (t : Tags) (k : String) : Option String :=
  (t.find? (fun kv => kv.1 = k)).map (·.2)

/-! ## `gatherUrl` -/

/-- How a call of a Go function returning `error` ends: it returns `nil` or an
error (given by its text), or it panics. -/
inductive Result where
  | returned (err : Option String)
  | panicked (msg : String)
deriving DecidableEq, Repr

/-- The `range metrics` loop of lines 101-104.  The type assertion
`v.(float64)` has the one-result form, which panics when the dynamic type of
`v` is not `float64`. -/
def rangeMetrics (tags : Tags) : List (String × JVal) → Accumulator → Result × Accumulator
  | [], acc => (.returned none, acc)
  | (k, v) :: rest, acc =>
    let name := metricName k
    match v with
    | .num x => rangeMetrics tags rest (Accumulator.Add acc name x tags)
    | _ =>
      (.panicked ("interface conversion: interface \x7b\x7d is " ++ v.typeName ++ ", not float64"),
        acc)

/-- The plugin's `gatherUrl`: the way the call ends and the sink after it. -/
def gatherUrl (env : Env) (addr : URL) (acc : Accumulator) : Result × Accumulator :=
  match env.get (env.urlString addr ++ "/metrics/snapshot") with
  | .error err =>
    (.returned (some ("Unabale to make HTTP request " ++ env.urlString addr ++ ": " ++ err)),
      acc)
  | .ok resp =>
    if resp.StatusCode ≠ 200 then
      (.returned (some ("Unexpected HTTP status " ++ env.urlString addr ++ ": " ++ resp.Status)),
        acc)
    else
      match resp.Body with
      | .error err => (.returned (some err), acc)
      | .ok body =>
        match env.unmarshal body with
        | .error err => (.returned (some err), acc)
        | .ok metrics => rangeMetrics (getTags env addr) metrics acc

/-! ## `Gather`

`Gather` runs several goroutines: the caller (main), one worker per parsed
address and one waiter.  They communicate through the wait group `wg` and the
channels `done` and `errc`, both of capacity one.  The embedding is a
transition function driven by a schedule: each entry of the schedule names the
goroutine that takes the next step; a goroutine that is blocked, has ended or
does not exist leaves the state as it is. -/

/-- Where the goroutine that called `Gather` stands: in the `for` loop with
the addresses still to visit, about to evaluate the `select`, blocked in the
`select`, or back in the caller with the returned error. -/
inductive MainPC where
  | loop (rest : List String)
  | select
  | parked
  | returned (err : Option String)
deriving DecidableEq, Repr

/-- Where a worker goroutine (lines 51-57) stands: about to call `gatherUrl`,
about to send its error on `errc`, about to run the deferred `wg.Done`, or
ended. -/
inductive WorkerPC where
  | start
  | send (err : String)
  | deferred
  | exited
deriving DecidableEq, Repr

/-- A worker goroutine with the address it was started with. -/
structure Worker where
  addr : URL
  pc : WorkerPC
deriving DecidableEq, Repr

/-- Where the waiter goroutine (lines 60-63) stands: in `wg.Wait`, about to
send on `done`, or ended. -/
inductive WaiterPC where
  | wait
  | send
  | exited
deriving DecidableEq, Repr

/-- The state of one call of `Gather`. -/
structure GState where
  /-- The sink. -/
  acc : Accumulator
  main : MainPC
  /-- The workers in the order in which they were started. -/
  workers : List Worker
  /-- The waiter, once started. -/
  waiter : Option WaiterPC
  /-- Counter of the wait group. -/
  wg : Nat
  /-- Whether the buffer of `done` holds an element. -/
  done : Bool
  /-- The element in the buffer of `errc`, if any. -/
  errc : Option String
  /-- The message of the panic that ended the process, if any. -/
  crashed : Option String
deriving DecidableEq, Repr

/-- One entry of a schedule.  For the main goroutine the flag says which case
the `select` takes when both channels are ready (Go picks one at random). -/
inductive Choice where
  | main (pickErr : Bool)
  | worker (i : Nat)
  | waiter
deriving DecidableEq, Repr

/-- Whether an entry of a schedule names the main goroutine. -/
def Choice.isMain : Choice → Bool
  | .main _ => true
  | _ => false

namespace Gather

/-- State at the entry of `Gather` for the addresses `urls` and the sink
`acc`. -/
def init (urls : List String) (acc : Accumulator) : GState :=
  { acc := acc, main := .loop urls, workers := [], waiter := none, wg := 0,
    done := false, errc := none, crashed := none }

/-- One step of the main goroutine (lines 44-70). -/
def stepMain (env : Env) (pickErr : Bool) (s : GState) : GState :=
  match s.main with
  | .loop [] => { s with waiter := some .wait, main := .select }
  | .loop (u :: rest) =>
    match env.parse u with
    | .error err =>
      { s with main := .returned (some ("Unable to parse address '" ++ u ++ "': " ++ err)) }
    | .ok addr =>
      { s with wg := s.wg + 1, workers := s.workers ++ [⟨addr, .start⟩], main := .loop rest }
  | .select =>
    match s.done, s.errc with
    | true, some e =>
      if pickErr then { s with errc := none, main := .returned (some e) }
      else { s with done := false, main := .returned none }
    | true, none => { s with done := false, main := .returned none }
    | false, some e => { s with errc := none, main := .returned (some e) }
    | false, none => { s with main := .parked }
  | .parked => s
  | .returned _ => s

/-- One step of worker `i` (lines 51-57).  A send on `errc` goes straight to
the main goroutine when that one is blocked in the `select`, into the buffer
when the buffer is free, and blocks otherwise.  A panic ends the process. -/
def stepWorker (env : Env) (i : Nat) (s : GState) : GState :=
  match s.workers.get? i with
  | none => s
  | some w =>
    match w.pc with
    | .start =>
      match gatherUrl env w.addr s.acc with
      | (.returned none, acc) =>
        { s with acc := acc, workers := s.workers.set i ⟨w.addr, .deferred⟩ }
      | (.returned (some e), acc) =>
        { s with acc := acc, workers := s.workers.set i ⟨w.addr, .send e⟩ }
      | (.panicked m, acc) => { s with acc := acc, crashed := some m }
    | .send e =>
      match s.main with
      | .parked =>
        { s with main := .returned (some e), workers := s.workers.set i ⟨w.addr, .deferred⟩ }
      | _ =>
        match s.errc with
        | none => { s with errc := some e, workers := s.workers.set i ⟨w.addr, .deferred⟩ }
        | some _ => s
    | .deferred => { s with wg := s.wg - 1, workers := s.workers.set i ⟨w.addr, .exited⟩ }
    | .exited => s

/-- One step of the waiter (lines 60-63). -/
def stepWaiter (s : GState) : GState :=
  match s.waiter with
  | some .wait => if s.wg = 0 then { s with waiter := some .send } else s
  | some .send =>
    match s.main with
    | .parked => { s with main := .returned none, waiter := some .exited }
    | _ => if s.done then s else { s with done := true, waiter := some .exited }
  | _ => s

/-- One step of the goroutine named by `c`; nothing moves once the process
has crashed. -/
def step (env : Env) (s : GState) (c : Choice) : GState :=
  if s.crashed.isSome then s
  else
    match c with
    | .main pickErr => stepMain env pickErr s
    | .worker i => stepWorker env i s
    | .waiter => stepWaiter s

/-- The state after the schedule `cs`. -/
def run (env : Env) (cs : List Choice) (s : GState) : GState :=
  cs.foldl (step env) s

end Gather

/-! ## Example environment -/

/-- An environment with four endpoints on localhost: port 5050 answers 200
with a snapshot of two numeric metrics, port 5051 answers 500, port 5052
answers 200 with a body that is not JSON, port 5053 answers 200 with a
snapshot that holds a string.  `url.Parse` accepts `http://localhost:`, whose
port is empty, and rejects the address `:5051`, which starts with a colon. -/
def demoEnv : Env where
  parse u :=
    if u = "http://localhost:5050" then .ok { Scheme := "http", Host := "localhost:5050" }
    else if u = "http://localhost:5051" then .ok { Scheme := "http", Host := "localhost:5051" }
    else if u = "http://localhost:5052" then .ok { Scheme := "http", Host := "localhost:5052" }
    else if u = "http://localhost:5053" then .ok { Scheme := "http", Host := "localhost:5053" }
    else if u = "http://localhost:" then .ok { Scheme := "http", Host := "localhost:" }
    else .error ("parse " ++ u ++ ": missing protocol scheme")
  urlString a := a.Scheme ++ "://" ++ a.Host
  get r :=
    if r = "http://localhost:5050/metrics/snapshot" then
      .ok { StatusCode := 200, Status := "200 OK",
            Body := .ok "\x7b\"memory/used\":1,\"uptime\":2\x7d" }
    else if r = "http://localhost:5051/metrics/snapshot" then
      .ok { StatusCode := 500, Status := "500 Internal Server Error", Body := .ok "" }
    else if r = "http://localhost:5052/metrics/snapshot" then
      .ok { StatusCode := 200, Status := "200 OK", Body := .ok "<html>" }
    else if r = "http://localhost:5053/metrics/snapshot" then
      .ok { StatusCode := 200, Status := "200 OK",
            Body := .ok "\x7b\"uptime\":2,\"version\":\"0.23\"\x7d" }
    else .error "dial tcp: connection refused"
  unmarshal b :=
    if b = "\x7b\"memory/used\":1,\"uptime\":2\x7d" then
      .ok [("memory/used", .num ⟨0x3FF0000000000000⟩), ("uptime", .num ⟨0x4000000000000000⟩)]
    else if b = "\x7b\"uptime\":2,\"version\":\"0.23\"\x7d" then
      .ok [("uptime", .num ⟨0x4000000000000000⟩), ("version", .str "0.23")]
    else if b = "<html>" then .error "invalid character '<' looking for beginning of value"
    else .error "unexpected end of JSON input"
  hostname := .ok "agent1"
  zoneCheck := true

/-- The samples that the `range` loop adds for a list of entries that all
hold a `float64`. -/
def numericSamples (tags : Tags) (l : List (String × JVal)) : List Sample :=
  l.filterMap fun kv =>
    match kv.2 with
    | .num x => some { name := metricName kv.1, value := x, tags := tags }
    | _ => none

/-- The character-wise substitution that `strings.Replace(k, "/", "_", -1)`
amounts to. -/
def slashToUnderscore (c : Char) : Char := if c = '/' then '_' else c

/-! ## Metric names -/

theorem replaceGo_slash (l : List Char) :
    replaceGo ['/'] ['_'] 0 l = l.map slashToUnderscore := by
  induction l with
  | nil => rfl
  | cons c cs ih =>
    by_cases hc : c = '/'
    · subst hc
      simp [replaceGo, List.isPrefixOf, ih, slashToUnderscore]
    · have hc' : ¬ '/' = c := fun e => hc e.symm
      simp [replaceGo, List.isPrefixOf, ih, slashToUnderscore, hc, hc']

theorem metricName_data (k : String) :
    (metricName k).data = k.data.map slashToUnderscore := by
  have h : ¬ ("/" : String) = "_" := by decide
  simp only [metricName, stringsReplace, h, if_false]
  exact replaceGo_slash k.data

theorem slashToUnderscore_ne_slash (c : Char) : slashToUnderscore c ≠ '/' := by
  unfold slashToUnderscore
  split
  · decide
  · assumption

theorem map_slashToUnderscore_of_not_mem (l : List Char) (h : '/' ∉ l) :
    l.map slashToUnderscore = l := by
  induction l with
  | nil => rfl
  | cons c cs ih =>
    simp only [List.mem_cons, not_or] at h
    have hc : c ≠ '/' := fun e => h.1 e.symm
    simp [slashToUnderscore, hc, ih h.2]

/-- C9: the emitted name is the key with each "/" replaced by "_": it is the
character-wise image of the key, has the same length, contains no "/", agrees
with the key wherever the key has no "/", equals the key when the key has no
"/", maps "memory/used" to "memory_used" and leaves "uptime" alone, and
normalising twice is the same as normalising once. -/
theorem metricName_spec (k : String) :
    (metricName k).data = k.data.map (fun c => if c = '/' then '_' else c) ∧
    (metricName k).length = k.length ∧
    '/' ∉ (metricName k).data ∧
    (∀ (i : Nat) (c : Char), k.data[i]? = some c → c ≠ '/' →
      (metricName k).data[i]? = some c) ∧
    ('/' ∉ k.data → metricName k = k) ∧
    metricName "memory/used" = "memory_used" ∧
    metricName "uptime" = "uptime" ∧
    metricName (metricName k) = metricName k := by
  have hd := metricName_data k
  have hno : '/' ∉ (metricName k).data := by
    rw [hd]
    intro hmem
    obtain ⟨c, -, hc⟩ := List.mem_map.1 hmem
    exact slashToUnderscore_ne_slash c hc
  refine ⟨hd, ?_, hno, ?_, ?_, by decide, by decide, ?_⟩
  · show (metricName k).data.length = k.data.length
    rw [hd, List.length_map]
  · intro i c hi hc
    rw [hd, List.getElem?_map, hi]
    simp [slashToUnderscore, hc]
  · intro h
    apply String.ext
    rw [hd]
    exact map_slashToUnderscore_of_not_mem _ h
  · apply String.ext
    rw [metricName_data (metricName k)]
    exact map_slashToUnderscore_of_not_mem _ hno

/-- Instance of `metricName_spec` at the key "cpu/user/secs". -/
theorem metricName_spec_witness :
    (metricName "cpu/user/secs").length = "cpu/user/secs".length ∧
    '/' ∉ (metricName "cpu/user/secs").data ∧
    metricName (metricName "cpu/user/secs") = metricName "cpu/user/secs" :=
  ⟨(metricName_spec "cpu/user/secs").2.1, (metricName_spec "cpu/user/secs").2.2.1,
    (metricName_spec "cpu/user/secs").2.2.2.2.2.2.2⟩

/-! ## `gatherUrl` -/

theorem rangeMetrics_append (tags : Tags) (pre rest : List (String × JVal))
    (hpre : ∀ kv ∈ pre, ∃ x, kv.2 = .num x) (acc : Accumulator) :
    rangeMetrics tags (pre ++ rest) acc
      = rangeMetrics tags rest (acc ++ numericSamples tags pre) := by
  induction pre generalizing acc with
  | nil => simp [numericSamples]
  | cons kv pre ih =>
    obtain ⟨k, v⟩ := kv
    obtain ⟨x, hx⟩ := hpre (k, v) (List.mem_cons_self _ _)
    simp only at hx
    subst hx
    have ih' := ih (fun kv h => hpre kv (List.mem_cons_of_mem _ h))
    show rangeMetrics tags (pre ++ rest) (Accumulator.Add acc (metricName k) x tags) = _
    rw [ih']
    simp [numericSamples, Accumulator.Add]

theorem numericSamples_forall₂ (tags : Tags) (l : List (String × JVal))
    (hl : ∀ kv ∈ l, ∃ x, kv.2 = .num x) :
    List.Forall₂
      (fun kv smp => smp.name = metricName kv.1 ∧ kv.2 = .num smp.value ∧ smp.tags = tags)
      l (numericSamples tags l) := by
  induction l with
  | nil => simp [numericSamples]
  | cons kv l ih =>
    obtain ⟨k, v⟩ := kv
    obtain ⟨x, hx⟩ := hl (k, v) (List.mem_cons_self _ _)
    simp only at hx
    subst hx
    have ih' := ih (fun kv h => hl kv (List.mem_cons_of_mem _ h))
    simp only [numericSamples, List.filterMap_cons] at ih' ⊢
    exact List.Forall₂.cons ⟨rfl, rfl, rfl⟩ ih'

/-- C1: when the response has status 200 and the body decodes to an object
whose values are all numbers, `gatherUrl` returns nil and appends to the sink
one sample per entry of the decoded object, entry by entry: the name is the
key with every "/" replaced by "_", the value is the entry's value, the tags
are `getTags` of the endpoint. -/
theorem gatherUrl_numeric (env : Env) (addr : URL) (acc : Accumulator) (resp : Response)
    (body : String) (metrics : List (String × JVal))
    (hget : env.get (env.urlString addr ++ "/metrics/snapshot") = .ok resp)
    (hst : resp.StatusCode = 200) (hbody : resp.Body = .ok body)
    (hdec : env.unmarshal body = .ok metrics)
    (hnum : ∀ kv ∈ metrics, ∃ x, kv.2 = .num x) :
    ∃ samples : List Sample,
      gatherUrl env addr acc = (.returned none, acc ++ samples) ∧
      List.Forall₂
        (fun kv smp =>
          smp.name.data = kv.1.data.map (fun c => if c = '/' then '_' else c) ∧
          kv.2 = .num smp.value ∧ smp.tags = getTags env addr)
        metrics samples := by
  refine ⟨numericSamples (getTags env addr) metrics, ?_, ?_⟩
  · have h := rangeMetrics_append (getTags env addr) metrics [] hnum acc
    simp only [List.append_nil] at h
    simp [gatherUrl, hget, hst, hbody, hdec, h, rangeMetrics]
  · refine (numericSamples_forall₂ (getTags env addr) metrics hnum).imp ?_
    rintro kv smp ⟨h1, h2, h3⟩
    exact ⟨by rw [h1]; exact metricName_data kv.1, h2, h3⟩

/-- Instance of `gatherUrl_numeric` at the endpoint on port 5050 of the
example environment. -/
theorem gatherUrl_numeric_witness :
    ∃ samples : List Sample,
      gatherUrl demoEnv { Scheme := "http", Host := "localhost:5050" } []
        = (.returned none, [] ++ samples) ∧
      List.Forall₂
        (fun kv smp =>
          smp.name.data = kv.1.data.map (fun c => if c = '/' then '_' else c) ∧
          kv.2 = .num smp.value ∧
          smp.tags = getTags demoEnv { Scheme := "http", Host := "localhost:5050" })
        [("memory/used", JVal.num ⟨0x3FF0000000000000⟩),
          ("uptime", JVal.num ⟨0x4000000000000000⟩)]
        samples :=
  gatherUrl_numeric demoEnv { Scheme := "http", Host := "localhost:5050" } []
    { StatusCode := 200, Status := "200 OK", Body := .ok "\x7b\"memory/used\":1,\"uptime\":2\x7d" }
    "\x7b\"memory/used\":1,\"uptime\":2\x7d"
    [("memory/used", .num ⟨0x3FF0000000000000⟩), ("uptime", .num ⟨0x4000000000000000⟩)]
    rfl rfl rfl rfl (by simp)

/-- C2: when the status of the response is not 2xx, `gatherUrl` returns the
status error, which names the endpoint and the status line, and leaves the
sink as it was, whatever the body. -/
theorem gatherUrl_bad_status (env : Env) (addr : URL) (acc : Accumulator) (resp : Response)
    (hget : env.get (env.urlString addr ++ "/metrics/snapshot") = .ok resp)
    (hst : ¬ (200 ≤ resp.StatusCode ∧ resp.StatusCode < 300)) :
    gatherUrl env addr acc
      = (.returned (some ("Unexpected HTTP status " ++ env.urlString addr ++ ": " ++ resp.Status)),
          acc) := by
  have h200 : resp.StatusCode ≠ 200 := by
    intro h
    apply hst
    omega
  simp [gatherUrl, hget, h200]

/-- Instance of `gatherUrl_bad_status` at the endpoint on port 5051 of the
example environment, which answers 500. -/
theorem gatherUrl_bad_status_witness :
    gatherUrl demoEnv { Scheme := "http", Host := "localhost:5051" } []
      = (.returned (some "Unexpected HTTP status http://localhost:5051: 500 Internal Server Error"),
          []) :=
  gatherUrl_bad_status demoEnv { Scheme := "http", Host := "localhost:5051" } []
    { StatusCode := 500, Status := "500 Internal Server Error", Body := .ok "" }
    rfl (by decide)

/-- C3: when the response has status 200 and the decoded object holds a value
that is not a number, `gatherUrl` does not return an error: it panics on the
type assertion, after it has appended one sample for every entry visited
before the first value that is not a number. -/
theorem gatherUrl_non_numeric_panics (env : Env) (addr : URL) (acc : Accumulator)
    (resp : Response) (body : String) (pre post : List (String × JVal)) (k : String) (v : JVal)
    (hget : env.get (env.urlString addr ++ "/metrics/snapshot") = .ok resp)
    (hst : resp.StatusCode = 200) (hbody : resp.Body = .ok body)
    (hdec : env.unmarshal body = .ok (pre ++ (k, v) :: post))
    (hpre : ∀ kv ∈ pre, ∃ x, kv.2 = .num x) (hv : ∀ x, v ≠ .num x) :
    ∃ samples : List Sample,
      gatherUrl env addr acc
        = (.panicked ("interface conversion: interface \x7b\x7d is " ++ v.typeName ++ ", not float64"),
            acc ++ samples) ∧
      samples.length = pre.length := by
  refine ⟨numericSamples (getTags env addr) pre, ?_, ?_⟩
  · have h := rangeMetrics_append (getTags env addr) pre ((k, v) :: post) hpre acc
    simp only [gatherUrl, hget, hst, hbody, hdec, h, ne_eq, not_true_eq_false, if_false]
    cases v with
    | num x => exact absurd rfl (hv x)
    | _ => rfl
  · exact (numericSamples_forall₂ (getTags env addr) pre hpre).length_eq.symm

/-- Instance of `gatherUrl_non_numeric_panics` at the endpoint on port 5053 of
the example environment, whose snapshot is `{"uptime":2,"version":"0.23"}`:
the call panics and the sample for "uptime" is already in the sink. -/
theorem gatherUrl_non_numeric_panics_witness :
    gatherUrl demoEnv { Scheme := "http", Host := "localhost:5053" } []
        = (.panicked "interface conversion: interface \x7b\x7d is string, not float64",
            [{ name := "uptime", value := ⟨0x4000000000000000⟩,
               tags := [("host", "agent1"), ("port", "5053")] }]) ∧
    ∃ samples : List Sample,
      gatherUrl demoEnv { Scheme := "http", Host := "localhost:5053" } []
        = (.panicked ("interface conversion: interface \x7b\x7d is " ++ (JVal.str "0.23").typeName
              ++ ", not float64"),
            [] ++ samples) ∧
      samples.length = [("uptime", JVal.num ⟨0x4000000000000000⟩)].length :=
  ⟨by decide,
    gatherUrl_non_numeric_panics demoEnv { Scheme := "http", Host := "localhost:5053" } []
      { StatusCode := 200, Status := "200 OK",
        Body := .ok "\x7b\"uptime\":2,\"version\":\"0.23\"\x7d" }
      "\x7b\"uptime\":2,\"version\":\"0.23\"\x7d"
      [("uptime", .num ⟨0x4000000000000000⟩)] [] "version" (.str "0.23")
      rfl rfl rfl rfl (by simp) (by simp)⟩

/-- C10: the errors of reading the body and of decoding the JSON are returned
by `gatherUrl` as they are, so their text does not have to contain the address
of the endpoint. -/
theorem gatherUrl_raw_errors (env : Env) (addr : URL) (acc : Accumulator) (resp : Response)
    (e : String)
    (hget : env.get (env.urlString addr ++ "/metrics/snapshot") = .ok resp)
    (hst : resp.StatusCode = 200)
    (hfail : resp.Body = .error e ∨ ∃ body, resp.Body = .ok body ∧ env.unmarshal body = .error e) :
    gatherUrl env addr acc = (.returned (some e), acc) := by
  rcases hfail with h | ⟨body, h1, h2⟩
  · simp [gatherUrl, hget, hst, h]
  · simp [gatherUrl, hget, hst, h1, h2]

/-- Instance of `gatherUrl_raw_errors` at the endpoint on port 5052 of the
example environment, whose body is `<html>`: the returned error is the
decoder's message, in which the address does not occur. -/
theorem gatherUrl_raw_errors_witness :
    gatherUrl demoEnv { Scheme := "http", Host := "localhost:5052" } []
      = (.returned (some "invalid character '<' looking for beginning of value"), []) ∧
    ¬ ("http://localhost:5052".data <:+:
        "invalid character '<' looking for beginning of value".data) :=
  ⟨gatherUrl_raw_errors demoEnv { Scheme := "http", Host := "localhost:5052" } []
      { StatusCode := 200, Status := "200 OK", Body := .ok "<html>" }
      "invalid character '<' looking for beginning of value"
      rfl rfl (Or.inr ⟨"<html>", rfl, rfl⟩),
    by decide⟩

/-! ## `net.SplitHostPort` -/

theorem indexByte_eq_none (c : Char) (l : List Char) (h : c ∉ l) : indexByte c l = none := by
  induction l with
  | nil => rfl
  | cons x xs ih =>
    simp only [List.mem_cons, not_or] at h
    have hx : ¬ x = c := fun e => h.1 e.symm
    simp [indexByte, hx, ih h.2]

theorem indexByte_append_cons (c : Char) (h p : List Char) (hh : c ∉ h) :
    indexByte c (h ++ c :: p) = some h.length := by
  induction h with
  | nil => simp [indexByte]
  | cons x xs ih =>
    simp only [List.mem_cons, not_or] at hh
    have hx : ¬ x = c := fun e => hh.1 e.symm
    simp [indexByte, hx, ih hh.2]

theorem lastIndexByte_eq_none (c : Char) (l : List Char) (h : c ∉ l) :
    lastIndexByte c l = none := by
  induction l with
  | nil => rfl
  | cons x xs ih =>
    simp only [List.mem_cons, not_or] at h
    have hx : ¬ x = c := fun e => h.1 e.symm
    simp [lastIndexByte, hx, ih h.2]

theorem lastIndexByte_append_cons (c : Char) (h p : List Char) (hp : c ∉ p) :
    lastIndexByte c (h ++ c :: p) = some h.length := by
  induction h with
  | nil => simp [lastIndexByte, lastIndexByte_eq_none c p hp]
  | cons x xs ih => simp [lastIndexByte, ih]

theorem lastIndexByte_some (c : Char) (l : List Char) (i : Nat)
    (h : lastIndexByte c l = some i) : l[i]? = some c := by
  induction l generalizing i with
  | nil => simp [lastIndexByte] at h
  | cons x xs ih =>
    simp only [lastIndexByte] at h
    split at h
    · rename_i j hj
      simp only [Option.some.injEq] at h
      subst h
      simpa using ih j hj
    · split at h
      · rename_i hx
        simp only [Option.some.injEq] at h
        subst h
        simp [hx]
      · simp at h

theorem splitTail_ok (s : List Char) (i j k : Nat) (host : List Char)
    (hj : '[' ∉ s.drop j) (hk : ']' ∉ s.drop k) :
    splitTail s i j k host = .ok (⟨host⟩, ⟨s.drop (i + 1)⟩) := by
  simp [splitTail, indexByte_eq_none _ _ hj, indexByte_eq_none _ _ hk]

/-- The `host:port` form. -/
theorem SplitHostPort_host_port (z : Bool) (hostport : String) (h p : List Char)
    (hs : hostport.data = h ++ ':' :: p)
    (hh : ∀ c ∈ h, c ≠ ':' ∧ c ≠ '[' ∧ c ≠ ']') (hz : z = true → '%' ∉ h)
    (hp : ∀ c ∈ p, c ≠ ':' ∧ c ≠ '[' ∧ c ≠ ']') :
    SplitHostPort z hostport = .ok (⟨h⟩, ⟨p⟩) := by
  have hcp : ':' ∉ p := fun m => (hp _ m).1 rfl
  have hch : ':' ∉ h := fun m => (hh _ m).1 rfl
  have hhead : ¬ (h ++ ':' :: p).head? = some '[' := by
    cases h with
    | nil => simp
    | cons x xs =>
      have := (hh x (List.mem_cons_self _ _)).2.1
      simpa using this
  have hzone : (z && (indexByte '%' h).isSome) = false := by
    cases z with
    | false => rfl
    | true => simp [indexByte_eq_none _ _ (hz rfl)]
  have hl : '[' ∉ (h ++ ':' :: p).drop 0 := by
    simp only [List.drop_zero, List.mem_append, List.mem_cons, not_or]
    exact ⟨fun m => (hh _ m).2.1 rfl, by decide, fun m => (hp _ m).2.1 rfl⟩
  have hr : ']' ∉ (h ++ ':' :: p).drop 0 := by
    simp only [List.drop_zero, List.mem_append, List.mem_cons, not_or]
    exact ⟨fun m => (hh _ m).2.2 rfl, by decide, fun m => (hp _ m).2.2 rfl⟩
  simp only [SplitHostPort, hs, lastIndexByte_append_cons _ h p hcp, hhead, if_false,
    List.take_left', indexByte_eq_none _ _ hch, Option.isSome_none, hzone,
    splitTail_ok _ _ _ _ _ hl hr]
  simp

/-- The `[host]:port` form. -/
theorem SplitHostPort_bracket (z : Bool) (hostport : String) (h p : List Char)
    (hs : hostport.data = '[' :: h ++ ']' :: ':' :: p)
    (hh : ∀ c ∈ h, c ≠ '[' ∧ c ≠ ']')
    (hp : ∀ c ∈ p, c ≠ ':' ∧ c ≠ '[' ∧ c ≠ ']') :
    SplitHostPort z hostport = .ok (⟨h⟩, ⟨p⟩) := by
  have hcp : ':' ∉ p := fun m => (hp _ m).1 rfl
  have hrh : ']' ∉ '[' :: h := by
    simp only [List.mem_cons, not_or]
    exact ⟨by decide, fun m => (hh _ m).2 rfl⟩
  have hlast : lastIndexByte ':' ('[' :: h ++ ']' :: ':' :: p) = some (h.length + 2) := by
    have := lastIndexByte_append_cons ':' ('[' :: h ++ [']']) p hcp
    simpa using this
  have hidx : indexByte ']' ('[' :: h ++ ']' :: ':' :: p) = some (h.length + 1) := by
    have := indexByte_append_cons ']' ('[' :: h) (':' :: p) hrh
    simpa using this
  have hl : '[' ∉ ('[' :: h ++ ']' :: ':' :: p).drop 1 := by
    simp only [List.cons_append, List.drop_succ_cons, List.drop_zero, List.mem_append,
      List.mem_cons, not_or]
    exact ⟨fun m => (hh _ m).1 rfl, by decide, by decide, fun m => (hp _ m).2.1 rfl⟩
  have hdrop : ('[' :: h ++ ']' :: ':' :: p).drop (h.length + 1 + 1) = ':' :: p := by
    have : '[' :: h ++ ']' :: ':' :: p = ('[' :: h ++ [']']) ++ ':' :: p := by simp
    rw [this, List.drop_left']
    simp
  have hr : ']' ∉ ('[' :: h ++ ']' :: ':' :: p).drop (h.length + 1 + 1) := by
    rw [hdrop]
    simp only [List.mem_cons, not_or]
    exact ⟨by decide, fun m => (hp _ m).2.2 rfl⟩
  have hport : ('[' :: h ++ ']' :: ':' :: p).drop (h.length + 2 + 1) = p := by
    have : '[' :: h ++ ']' :: ':' :: p = ('[' :: h ++ [']', ':']) ++ p := by simp
    rw [this, List.drop_left']
    simp
  have hhost : (('[' :: h ++ ']' :: ':' :: p).take (h.length + 1)).drop 1 = h := by
    simp
  simp only [SplitHostPort, hs, hlast, hidx]
  simp only [List.cons_append, List.head?_cons, if_true]
  simp only [List.cons_append] at hl hr hport hhost
  rw [splitTail_ok _ _ _ _ _ hl hr, hport, hhost]
  have hlen : ¬ h.length + 1 + 1 = ('[' :: (h ++ ']' :: ':' :: p)).length := by
    simp only [List.length_cons, List.length_append]
    omega
  rw [if_neg hlen]

/-- Without a colon there is no port. -/
theorem SplitHostPort_no_colon (z : Bool) (hostport : String) (h : ':' ∉ hostport.data) :
    SplitHostPort z hostport = .error "missing port in address" := by
  simp [SplitHostPort, lastIndexByte_eq_none _ _ h]

/-- A bracketed host without a port. -/
theorem SplitHostPort_bracket_only (z : Bool) (hostport : String) (h : List Char)
    (hs : hostport.data = '[' :: h ++ [']']) (hh : ']' ∉ h) :
    SplitHostPort z hostport = .error "missing port in address" := by
  have hrh : ']' ∉ '[' :: h := by
    simp only [List.mem_cons, not_or]
    exact ⟨by decide, hh⟩
  have hidx : indexByte ']' ('[' :: h ++ [']']) = some (h.length + 1) := by
    have := indexByte_append_cons ']' ('[' :: h) [] hrh
    simpa using this
  simp only [SplitHostPort, hs, hidx]
  cases lastIndexByte ':' ('[' :: h ++ [']']) with
  | none => rfl
  | some i => simp

/-! ## `getTags` -/

theorem splitTail_port (s : List Char) (i j k : Nat) (host : List Char) (a b : String)
    (h : splitTail s i j k host = .ok (a, b)) : b = ⟨s.drop (i + 1)⟩ := by
  unfold splitTail at h
  split at h
  · simp at h
  · split at h
    · simp at h
    · simp only [Except.ok.injEq, Prod.mk.injEq] at h
      exact h.2.symm

/-- On success the port is what follows the last colon. -/
theorem SplitHostPort_port (z : Bool) (hostport a b : String)
    (h : SplitHostPort z hostport = .ok (a, b)) :
    ∃ i, lastIndexByte ':' hostport.data = some i ∧ b = ⟨hostport.data.drop (i + 1)⟩ := by
  unfold SplitHostPort at h
  simp only at h
  split at h
  · simp at h
  · rename_i i hi
    refine ⟨i, hi, ?_⟩
    split at h
    · split at h
      · simp at h
      · split at h
        · simp at h
        · split at h
          · exact splitTail_port _ _ _ _ _ _ _ h
          · split at h <;> simp at h
    · split at h
      · simp at h
      · split at h
        · simp at h
        · exact splitTail_port _ _ _ _ _ _ _ h

theorem getLast?_of_getElem?_last (l : List Char) (i : Nat) (c : Char)
    (hi : l[i]? = some c) (hlen : l.length ≤ i + 1) : l.getLast? = some c := by
  have hlt : i < l.length := by
    by_contra hge
    rw [List.getElem?_eq_none (by omega)] at hi
    simp at hi
  have : l.length - 1 = i := by omega
  rw [List.getLast?_eq_getElem?, this, hi]

/-- C6: the "port" tag is the explicit port when the host has the form
`host:port` or `[host]:port` (host and port free of colons and brackets, and
the unbracketed host free of `%` where the library rejects it); when the host
carries no port (no colon, or a bracketed host alone) it is "80" for scheme
http, "443" for scheme https and empty for every other scheme; for
`http://localhost:5051` it is "5051". -/
theorem getTags_port (env : Env) (addr : URL) (h p : List Char) :
    (addr.Host.data = h ++ ':' :: p →
      (∀ c ∈ h, c ≠ ':' ∧ c ≠ '[' ∧ c ≠ ']') → (env.zoneCheck = true → '%' ∉ h) →
      (∀ c ∈ p, c ≠ ':' ∧ c ≠ '[' ∧ c ≠ ']') →
      Tags.get? (getTags env addr) "port" = some ⟨p⟩) ∧
    (addr.Host.data = '[' :: h ++ ']' :: ':' :: p →
      (∀ c ∈ h, c ≠ '[' ∧ c ≠ ']') → (∀ c ∈ p, c ≠ ':' ∧ c ≠ '[' ∧ c ≠ ']') →
      Tags.get? (getTags env addr) "port" = some ⟨p⟩) ∧
    ((':' ∉ addr.Host.data ∨ (addr.Host.data = '[' :: h ++ [']'] ∧ ']' ∉ h)) →
      Tags.get? (getTags env addr) "port"
        = some (if addr.Scheme = "http" then "80"
                else if addr.Scheme = "https" then "443" else "")) ∧
    Tags.get? (getTags env { Scheme := "http", Host := "localhost:5051" }) "port"
      = some "5051" := by
  have hne : ¬ ("host" : String) = "port" := by decide
  have hport : ∀ a : URL, Tags.get? (getTags env a) "port" = some (getPort env a) := by
    intro a
    simp [getTags, Tags.get?, hne]
  refine ⟨?_, ?_, ?_, ?_⟩
  · intro hs hh hz hp
    rw [hport, getPort, SplitHostPort_host_port _ _ h p hs hh hz hp]
  · intro hs hh hp
    rw [hport, getPort, SplitHostPort_bracket _ _ h p hs hh hp]
  · intro hno
    rw [hport, getPort]
    rcases hno with hno | ⟨hs, hh⟩
    · rw [SplitHostPort_no_colon _ _ hno]
    · rw [SplitHostPort_bracket_only _ _ h hs hh]
  · rw [hport, getPort,
      SplitHostPort_host_port _ "localhost:5051" "localhost".data "5051".data rfl
        (by decide) (fun _ => by decide) (by decide)]

/-- Instance of `getTags_port` at `https://mesos.example:8443` and at
`https://mesos.example` in the example environment. -/
theorem getTags_port_witness :
    Tags.get? (getTags demoEnv { Scheme := "https", Host := "mesos.example:8443" }) "port"
      = some "8443" ∧
    Tags.get? (getTags demoEnv { Scheme := "https", Host := "mesos.example" }) "port"
      = some "443" :=
  ⟨(getTags_port demoEnv { Scheme := "https", Host := "mesos.example:8443" }
      "mesos.example".data "8443".data).1 rfl (by decide) (fun _ => by decide) (by decide),
    (getTags_port demoEnv { Scheme := "https", Host := "mesos.example" } [] []).2.2.1
      (Or.inl (by decide))⟩

/-- C7, as stated, fails: `http://localhost:` parses, its scheme is http, and
the port that `getTags` resolves is empty, because `net.SplitHostPort` splits
`localhost:` into the host `localhost` and the empty port without an error. -/
theorem getTags_port_empty_for_http :
    demoEnv.parse "http://localhost:" = .ok { Scheme := "http", Host := "localhost:" } ∧
    SplitHostPort demoEnv.zoneCheck "localhost:" = .ok ("localhost", "") ∧
    getTags demoEnv { Scheme := "http", Host := "localhost:" }
      = [("host", "agent1"), ("port", "")] := by
  decide

/-- C7 (amended): for scheme http or https the resolved port is either the
text that follows the last colon of the host (the explicit port) or the
default of the scheme, "80" for http and "443" for https; it is not empty
unless the host ends in a colon. -/
theorem getPort_http_https (env : Env) (addr : URL)
    (hs : addr.Scheme = "http" ∨ addr.Scheme = "https") :
    ((∃ i, lastIndexByte ':' addr.Host.data = some i ∧
        getPort env addr = ⟨addr.Host.data.drop (i + 1)⟩) ∨
      (addr.Scheme = "http" ∧ getPort env addr = "80") ∨
      (addr.Scheme = "https" ∧ getPort env addr = "443")) ∧
    Tags.get? (getTags env addr) "port" = some (getPort env addr) ∧
    (addr.Host.data.getLast? ≠ some ':' → getPort env addr ≠ "") := by
  have hne : ¬ ("host" : String) = "port" := by decide
  have h80 : ¬ ("80" : String) = "" := by decide
  have h443 : ¬ ("443" : String) = "" := by decide
  have hhs : ¬ ("https" : String) = "http" := by decide
  refine ⟨?_, by simp [getTags, Tags.get?, hne], ?_⟩
  · unfold getPort
    split
    · rename_i a b hab
      exact Or.inl (SplitHostPort_port _ _ _ _ hab)
    · rcases hs with hs | hs
      · exact Or.inr (Or.inl ⟨hs, by simp [hs]⟩)
      · exact Or.inr (Or.inr ⟨hs, by simp [hs, hhs]⟩)
  · intro hlast
    unfold getPort
    split
    · rename_i a b hab
      obtain ⟨i, hi, hb⟩ := SplitHostPort_port _ _ _ _ hab
      intro hempty
      apply hlast
      have hd : addr.Host.data.drop (i + 1) = [] := by
        have := congrArg String.data hempty
        rw [hb] at this
        simpa using this
      have hlen : addr.Host.data.length ≤ i + 1 := by
        simpa [List.drop_eq_nil_iff] using hd
      exact getLast?_of_getElem?_last _ i ':' (lastIndexByte_some _ _ _ hi) hlen
    · rcases hs with hs | hs
      · simp [hs, h80]
      · simp [hs, hhs, h443]

/-- Instance of `getPort_http_https` at `https://mesos.example` in the example
environment: the port is the default "443". -/
theorem getPort_http_https_witness :
    getPort demoEnv { Scheme := "https", Host := "mesos.example" } ≠ "" :=
  (getPort_http_https demoEnv { Scheme := "https", Host := "mesos.example" }
    (Or.inr rfl)).2.2 (by decide)

/-- C8: `getTags` is a total function whose result has exactly the keys
"host" and "port"; "host" is the looked-up hostname when the lookup succeeds
and "unknown" when it fails; "port" is the resolved port; and the result
depends only on the scheme and host of the endpoint and on the outcome of the
lookup. -/
theorem getTags_spec (env : Env) (addr : URL) :
    (getTags env addr).map Prod.fst = ["host", "port"] ∧
    (∀ h, env.hostname = .ok h → Tags.get? (getTags env addr) "host" = some h) ∧
    (∀ e, env.hostname = .error e → Tags.get? (getTags env addr) "host" = some "unknown") ∧
    Tags.get? (getTags env addr) "port" = some (getPort env addr) ∧
    (∀ (env' : Env) (addr' : URL), env'.hostname = env.hostname →
      env'.zoneCheck = env.zoneCheck → addr'.Scheme = addr.Scheme → addr'.Host = addr.Host →
      getTags env' addr' = getTags env addr) := by
  have hne : ¬ ("host" : String) = "port" := by decide
  refine ⟨rfl, ?_, ?_, ?_, ?_⟩
  · intro h hh
    simp [getTags, Tags.get?, hh]
  · intro e he
    simp [getTags, Tags.get?, he]
  · simp [getTags, Tags.get?, hne]
  · intro env' addr' h1 h2 h3 h4
    simp [getTags, getPort, h1, h2, h3, h4]

/-- Instance of `getTags_spec` at `http://localhost:5051` in the example
environment. -/
theorem getTags_spec_witness :
    Tags.get? (getTags demoEnv { Scheme := "http", Host := "localhost:5051" }) "host"
      = some "agent1" :=
  (getTags_spec demoEnv { Scheme := "http", Host := "localhost:5051" }).2.1 "agent1" rfl

/-! ## `Gather` -/

theorem map_addr_set (l : List Worker) (i : Nat) (w : Worker) (pc : WorkerPC)
    (h : l.get? i = some w) :
    (l.set i ⟨w.addr, pc⟩).map (·.addr) = l.map (·.addr) := by
  induction l generalizing i with
  | nil => rfl
  | cons x xs ih =>
    cases i with
    | zero =>
      simp only [List.get?_cons_zero, Option.some.injEq] at h
      subst h
      rfl
    | succ n =>
      simp only [List.get?_cons_succ] at h
      simp [List.set, ih n h]

theorem stepWorker_keep (env : Env) (i : Nat) (s : GState) (hp : s.main ≠ .parked) :
    (Gather.stepWorker env i s).main = s.main ∧
    (Gather.stepWorker env i s).workers.map (·.addr) = s.workers.map (·.addr) := by
  unfold Gather.stepWorker
  split
  · exact ⟨rfl, rfl⟩
  · rename_i w hw
    split
    · split
      · exact ⟨rfl, map_addr_set _ _ _ _ hw⟩
      · exact ⟨rfl, map_addr_set _ _ _ _ hw⟩
      · exact ⟨rfl, rfl⟩
    · split
      · rename_i hm
        exact absurd hm hp
      · split
        · exact ⟨rfl, map_addr_set _ _ _ _ hw⟩
        · exact ⟨rfl, rfl⟩
    · exact ⟨rfl, map_addr_set _ _ _ _ hw⟩
    · exact ⟨rfl, rfl⟩

theorem stepWaiter_keep (s : GState) (hp : s.main ≠ .parked) :
    (Gather.stepWaiter s).main = s.main ∧ (Gather.stepWaiter s).workers = s.workers := by
  unfold Gather.stepWaiter
  split
  · split <;> exact ⟨rfl, rfl⟩
  · split
    · rename_i hm
      exact absurd hm hp
    · split <;> exact ⟨rfl, rfl⟩
  · exact ⟨rfl, rfl⟩

theorem step_keep (env : Env) (s : GState) (c : Choice) (hp : s.main ≠ .parked)
    (hc : c.isMain = false ∨ ∃ r, s.main = .returned r) :
    (Gather.step env s c).main = s.main ∧
    (Gather.step env s c).workers.map (·.addr) = s.workers.map (·.addr) := by
  unfold Gather.step
  split
  · exact ⟨rfl, rfl⟩
  · cases c with
    | main b =>
      rcases hc with hc | ⟨r, hr⟩
      · simp [Choice.isMain] at hc
      · simp [Gather.stepMain, hr]
    | worker i => exact stepWorker_keep env i s hp
    | waiter =>
      have := stepWaiter_keep s hp
      exact ⟨this.1, by rw [this.2]⟩

theorem run_cons (env : Env) (c : Choice) (cs : List Choice) (s : GState) :
    Gather.run env (c :: cs) s = Gather.run env cs (Gather.step env s c) := rfl

theorem run_crashed (env : Env) (cs : List Choice) (s : GState) (h : s.crashed.isSome = true) :
    Gather.run env cs s = s := by
  induction cs with
  | nil => rfl
  | cons c cs ih =>
    rw [run_cons]
    have : Gather.step env s c = s := by simp [Gather.step, h]
    rw [this, ih]

theorem run_returned (env : Env) (cs : List Choice) (s : GState) (r : Option String)
    (h : s.main = .returned r) :
    (Gather.run env cs s).main = .returned r ∧
    (Gather.run env cs s).workers.map (·.addr) = s.workers.map (·.addr) := by
  induction cs generalizing s with
  | nil => exact ⟨h, rfl⟩
  | cons c cs ih =>
    rw [run_cons]
    have hk := step_keep env s c (by rw [h]; simp) (Or.inr ⟨r, h⟩)
    have := ih (Gather.step env s c) (by rw [hk.1, h])
    exact ⟨this.1, by rw [this.2, hk.2]⟩

/-- The main loop in front of a malformed address: whatever the schedule, the
only value `Gather` can return is the resolution error, the workers are those
of the well-formed addresses before it, and the error is returned once the
main goroutine has taken enough steps. -/
theorem run_loop (env : Env) (u e : String) (post : List String)
    (hu : env.parse u = .error e) (cs : List Choice) :
    ∀ (s : GState) (rest : List String) (ws : List URL),
      (∀ x ∈ rest, ∃ a, env.parse x = .ok a) →
      s.main = .loop (rest ++ u :: post) → s.workers.map (·.addr) = ws →
      (∀ r, (Gather.run env cs s).main = .returned r →
        r = some ("Unable to parse address '" ++ u ++ "': " ++ e) ∧
        List.Forall₂ (fun x a => env.parse x = .ok a) rest
          (((Gather.run env cs s).workers.map (·.addr)).drop ws.length) ∧
        ((Gather.run env cs s).workers.map (·.addr)).take ws.length = ws) ∧
      ((Gather.run env cs s).crashed = none →
        rest.length < (cs.filter Choice.isMain).length →
        (Gather.run env cs s).main
          = .returned (some ("Unable to parse address '" ++ u ++ "': " ++ e))) := by
  induction cs with
  | nil =>
    intro s rest ws _ hmain _
    refine ⟨?_, ?_⟩
    · intro r hr
      simp [Gather.run, hmain] at hr
    · intro _ hlen
      simp at hlen
  | cons c cs ih =>
    intro s rest ws hrest hmain hws
    rw [run_cons]
    by_cases hcr : s.crashed.isSome = true
    · have hstep : Gather.step env s c = s := by simp [Gather.step, hcr]
      rw [hstep, run_crashed env cs s hcr]
      refine ⟨?_, ?_⟩
      · intro r hr
        rw [hmain] at hr
        simp at hr
      · intro hnone
        rw [hnone] at hcr
        simp at hcr
    · cases c with
      | main b =>
        have hstep : Gather.step env s (.main b) = Gather.stepMain env b s := by
          simp [Gather.step, hcr]
        rw [hstep]
        cases rest with
        | nil =>
          have hs' : (Gather.stepMain env b s).main
              = .returned (some ("Unable to parse address '" ++ u ++ "': " ++ e)) ∧
              (Gather.stepMain env b s).workers = s.workers := by
            simp [Gather.stepMain, hmain, hu]
          have hret := run_returned env cs (Gather.stepMain env b s) _ hs'.1
          rw [hs'.2] at hret
          refine ⟨?_, ?_⟩
          · intro r hr
            rw [hret.1] at hr
            simp only [MainPC.returned.injEq] at hr
            refine ⟨hr.symm, ?_, ?_⟩
            · rw [hret.2]
              simp [hws]
            · rw [hret.2]
              simp [hws]
          · intro _ _
            exact hret.1
        | cons x rest' =>
          obtain ⟨a, ha⟩ := hrest x (List.mem_cons_self _ _)
          have hs' : Gather.stepMain env b s
              = { s with wg := s.wg + 1, workers := s.workers ++ [⟨a, .start⟩],
                         main := .loop (rest' ++ u :: post) } := by
            simp [Gather.stepMain, hmain, ha]
          rw [hs']
          have := ih
            { s with wg := s.wg + 1, workers := s.workers ++ [⟨a, .start⟩],
                     main := .loop (rest' ++ u :: post) }
            rest' (ws ++ [a]) (fun y hy => hrest y (List.mem_cons_of_mem _ hy)) rfl
            (by simp [hws])
          refine ⟨?_, ?_⟩
          · intro r hr
            obtain ⟨h1, h2, h3⟩ := this.1 r hr
            refine ⟨h1, ?_, ?_⟩
            · generalize (List.map (·.addr) (Gather.run env cs _).workers) = L at h2 h3
              have hL : L = (ws ++ [a]) ++ L.drop (ws ++ [a]).length := by
                conv_lhs => rw [← List.take_append_drop (ws ++ [a]).length L, h3]
              rw [hL]
              simp only [List.append_assoc, List.singleton_append, List.drop_left']
              exact List.Forall₂.cons ha h2
            · generalize (List.map (·.addr) (Gather.run env cs _).workers) = L at h2 h3
              have hL : L = (ws ++ [a]) ++ L.drop (ws ++ [a]).length := by
                conv_lhs => rw [← List.take_append_drop (ws ++ [a]).length L, h3]
              rw [hL]
              simp
          · intro hnone hlen
            apply this.2 hnone
            simp only [List.filter_cons, Choice.isMain, if_true, List.length_cons] at hlen
            omega
      | worker i =>
        have hk := step_keep env s (.worker i) (by rw [hmain]; simp) (Or.inl rfl)
        have := ih (Gather.step env s (.worker i)) rest ws hrest (by rw [hk.1, hmain])
          (by rw [hk.2, hws])
        refine ⟨this.1, ?_⟩
        intro hnone hlen
        apply this.2 hnone
        simpa [List.filter_cons, Choice.isMain] using hlen
      | waiter =>
        have hk := step_keep env s .waiter (by rw [hmain]; simp) (Or.inl rfl)
        have := ih (Gather.step env s .waiter) rest ws hrest (by rw [hk.1, hmain])
          (by rw [hk.2, hws])
        refine ⟨this.1, ?_⟩
        intro hnone hlen
        apply this.2 hnone
        simpa [List.filter_cons, Choice.isMain] using hlen

/-- C4, as stated, fails: with the addresses `http://localhost:5050` and
`:5051`, `Gather` returns the resolution error for `:5051`, but the worker for
the first address was started before the second address was parsed; in this
schedule it has already fetched the snapshot and added its two samples. -/
theorem Gather_fetch_before_parse_error :
    (Gather.run demoEnv [.main true, .worker 0, .main true]
        (Gather.init ["http://localhost:5050", ":5051"] [])).main
      = .returned (some "Unable to parse address ':5051': parse :5051: missing protocol scheme") ∧
    (Gather.run demoEnv [.main true, .worker 0, .main true]
        (Gather.init ["http://localhost:5050", ":5051"] [])).workers
      = [⟨{ Scheme := "http", Host := "localhost:5050" }, .deferred⟩] ∧
    (Gather.run demoEnv [.main true, .worker 0, .main true]
        (Gather.init ["http://localhost:5050", ":5051"] [])).acc
      = [{ name := "memory_used", value := ⟨0x3FF0000000000000⟩,
           tags := [("host", "agent1"), ("port", "5050")] },
         { name := "uptime", value := ⟨0x4000000000000000⟩,
           tags := [("host", "agent1"), ("port", "5050")] }] := by
  decide

/-- C4 (amended): when the first address that fails to parse comes after the
well-formed addresses `pre`, then under every schedule the only value `Gather`
can return is the resolution error for that address, which quotes the address
and the parse diagnostic; at that point workers have been started for the
addresses of `pre`, in order, and for no other address; and `Gather` does
return that error once the main goroutine has taken more than `pre.length`
steps, unless a worker panic has ended the process. -/
theorem Gather_parse_error (env : Env) (pre post : List String) (u e : String)
    (acc : Accumulator) (cs : List Choice)
    (hpre : ∀ x ∈ pre, ∃ a, env.parse x = .ok a) (hu : env.parse u = .error e) :
    (∀ r, (Gather.run env cs (Gather.init (pre ++ u :: post) acc)).main = .returned r →
      r = some ("Unable to parse address '" ++ u ++ "': " ++ e) ∧
      List.Forall₂ (fun x w => env.parse x = .ok w.addr) pre
        (Gather.run env cs (Gather.init (pre ++ u :: post) acc)).workers) ∧
    ((Gather.run env cs (Gather.init (pre ++ u :: post) acc)).crashed = none →
      pre.length < (cs.filter Choice.isMain).length →
      (Gather.run env cs (Gather.init (pre ++ u :: post) acc)).main
        = .returned (some ("Unable to parse address '" ++ u ++ "': " ++ e))) := by
  have h := run_loop env u e post hu cs (Gather.init (pre ++ u :: post) acc) pre [] hpre rfl rfl
  refine ⟨?_, h.2⟩
  intro r hr
  obtain ⟨h1, h2, -⟩ := h.1 r hr
  refine ⟨h1, ?_⟩
  simpa [List.forall₂_map_right_iff] using h2

/-- Instance of `Gather_parse_error` at the addresses `http://localhost:5050`
and `:5051` of the example environment, for the schedule main, worker 0,
main. -/
theorem Gather_parse_error_witness :
    (Gather.run demoEnv [.main true, .worker 0, .main true]
        (Gather.init (["http://localhost:5050"] ++ ":5051" :: []) [])).main
      = .returned (some ("Unable to parse address '" ++ ":5051" ++ "': "
          ++ "parse :5051: missing protocol scheme")) :=
  (Gather_parse_error demoEnv ["http://localhost:5050"] [] ":5051"
    "parse :5051: missing protocol scheme" [] [.main true, .worker 0, .main true]
    (by
      intro x hx
      rw [List.mem_singleton.1 hx]
      exact ⟨_, rfl⟩)
    rfl).2 (by decide) (by decide)

/-- C5: for a single address whose `gatherUrl` returns an error, there is a
schedule under which `Gather` returns nil: the worker puts the error into the
buffer of `errc` and ends, the waiter puts its signal into the buffer of
`done`, and only then the main goroutine evaluates the `select`, finds both
channels ready and takes the `done` case.  Had it taken the other case, the
same run would return the error. -/
theorem Gather_select_race (env : Env) (u : String) (addr : URL) (e : String)
    (acc acc' : Accumulator) (hp : env.parse u = .ok addr)
    (hg : gatherUrl env addr acc = (.returned (some e), acc')) :
    Gather.run env
        [.main true, .main true, .worker 0, .worker 0, .worker 0, .waiter, .waiter, .main false]
        (Gather.init [u] acc)
      = { acc := acc', main := .returned none, workers := [⟨addr, .exited⟩],
          waiter := some .exited, wg := 0, done := false, errc := some e, crashed := none } ∧
    Gather.run env
        [.main true, .main true, .worker 0, .worker 0, .worker 0, .waiter, .waiter, .main true]
        (Gather.init [u] acc)
      = { acc := acc', main := .returned (some e), workers := [⟨addr, .exited⟩],
          waiter := some .exited, wg := 0, done := true, errc := none, crashed := none } := by
  constructor <;>
    simp [Gather.run, Gather.step, Gather.stepMain, Gather.stepWorker, Gather.stepWaiter,
      Gather.init, hp, hg]

/-- Instance of `Gather_select_race` at the endpoint on port 5051 of the
example environment, which answers 500: `gatherUrl` returns the status error,
and `Gather` returns nil. -/
theorem Gather_select_race_witness :
    gatherUrl demoEnv { Scheme := "http", Host := "localhost:5051" } []
      = (.returned (some "Unexpected HTTP status http://localhost:5051: 500 Internal Server Error"),
          []) ∧
    (Gather.run demoEnv
        [.main true, .main true, .worker 0, .worker 0, .worker 0, .waiter, .waiter, .main false]
        (Gather.init ["http://localhost:5051"] [])).main = .returned none :=
  ⟨by decide,
    congrArg GState.main
      (Gather_select_race demoEnv "http://localhost:5051"
        { Scheme := "http", Host := "localhost:5051" }
        "Unexpected HTTP status http://localhost:5051: 500 Internal Server Error" [] []
        rfl (by decide)).1⟩

end Mesos
